import Mathlib

/-!
Verification of the 6502 bus controller (6502ctl.ino).

Shallow embedding of the cycle-synchronous bus engine and the debug state
machine.  Pure C functions become Lean functions; the mutable RAM array and
the ICTL output port become explicit state; the serial input channel becomes
a list of pending bytes; machine integers are Nat with the source's masks
made explicit.

The pin header (6502pins.h) is not part of the core source; following the
spec, each output-control line (RWB, SYNC, MLB, VPB) is modelled as the
boolean result of its mask test, and each input-control write site
(write_ictl with a single-pin mask) as an update of the named line.
-/

namespace Ctl6502

/-- RAMSIZE from the source: 4 * 1024. -/
def RAMSIZE : Nat := 4 * 1024

/-- RAMMASK from the source: RAMSIZE - 1. -/
def RAMMASK : Nat := RAMSIZE - 1

/-- ROMSIZE from the source: 24 * 1024. -/
def ROMSIZE : Nat := 24 * 1024

/-- RAMADDR(a) from the source: (a) < 0x1000. -/
def RAMADDR (a : Nat) : Bool := a < 0x1000

/-- ROMADDR(a) from the source: (a) >= 0xA000. -/
def ROMADDR (a : Nat) : Bool := 0xA000 ≤ a

/-- read_data from the source.  RAM addresses read the masked RAM slot.
Otherwise the C code evaluates rom[addr - 0xA000], where the index
arithmetic is done in int: the access denotes a value exactly when
0 ≤ addr - 0xA000 < rom size, so the embedding returns the rom entry via
List.get? when addr ≥ 0xA000 (none for an index past the image) and none
for the out-of-domain negative-index case. -/
def read_data (rom : List Nat) (ram : Nat → Nat) (addr : Nat) : Option Nat :=
  if RAMADDR addr then some (ram (addr &&& RAMMASK))
  else if ROMADDR addr then rom.get? (addr - 0xA000) else none

/-- write_data from the source: only RAM addresses store (masked); every
other address is a silent no-op. -/
def write_data (ram : Nat → Nat) (addr data : Nat) : Nat → Nat :=
  if RAMADDR addr then (fun i => if i = addr &&& RAMMASK then data else ram i)
  else ram

/-- A sequence of write_data operations applied in order. -/
def writes (ram : Nat → Nat) (ops : List (Nat × Nat)) : Nat → Nat :=
  ops.foldl (fun r p => write_data r p.1 p.2) ram

/-- Observable clock/reset events, in the order the source emits them. -/
inductive Ev where
  | rise : Ev
  | fall : Ev
  | resbLo : Ev
  | resbHi : Ev
deriving DecidableEq

/-- Controller state: the RAM image, the RESB and PHI2 output lines
(single-pin write_ictl sites), and the trace of emitted clock/reset
events. -/
structure St where
  ram : Nat → Nat
  resb : Bool
  phi2 : Bool
  trace : List Ev

/-- clock_rise from the source: drive PHI2 high (write_ictl on the PHI2
pin); CLK_DELAY is a no-op. -/
def clock_rise (s : St) : St :=
  { s with phi2 := true, trace := s.trace ++ [Ev.rise] }

/-- clock_fall from the source: drive PHI2 low. -/
def clock_fall (s : St) : St :=
  { s with phi2 := false, trace := s.trace ++ [Ev.fall] }

/-- clock_cycle(n) from the source: n iterations of rise-then-fall,
front to back. -/
def clock_cycle : Nat → St → St
  | 0, s => s
  | n + 1, s => clock_cycle n (clock_fall (clock_rise s))

/-- RESB_0_NCLK from the source. -/
def RESB_0_NCLK : Nat := 2

/-- RESB_1_NCLK from the source. -/
def RESB_1_NCLK : Nat := 7

/-- reset from the source: drive RESB low (write_ictl on the RESB pin),
run RESB_0_NCLK cycles, drive RESB high, run RESB_1_NCLK cycles.  A pure
state transformer: it returns only after the whole sequence. -/
def reset (s : St) : St :=
  let s1 : St := { s with resb := false, trace := s.trace ++ [Ev.resbLo] }
  let s2 : St := clock_cycle RESB_0_NCLK s1
  let s3 : St := { s2 with resb := true, trace := s2.trace ++ [Ev.resbHi] }
  clock_cycle RESB_1_NCLK s3

/-- Initial value of the debug_step flag (static bool debug_step = 1). -/
def debug_step_init : Bool := true

/-- The command loop of debug() (lines 215-244).  The pending serial input
is a list of bytes; a blocking Serial.read with no pending byte never
returns, modelled as none.  Each recursive step is one iteration of the
while loop: the byte at the head is consumed; a byte resolving per the
switch exits with (new debug_step, remaining input, state after an optional
reset); any other byte is discarded and the loop re-checks
debug_step || Serial.available(). -/
def debugCmds (step : Bool) : List Char → St → Option (Bool × List Char × St)
  | [], s => if step then none else some (step, [], s)
  | c :: rest, s =>
    if c = 's' then
      (if step then some (step, rest, s) else debugCmds step rest s)
    else if c = 'c' then
      (if step then some (false, rest, s) else debugCmds step rest s)
    else if c = 'b' then
      (if !step then some (true, rest, s) else debugCmds step rest s)
    else if c = 'r' then some (step, rest, reset s)
    else debugCmds step rest s

/-- debug_available from the source: debug_step || (UCSR0A & (1 << RXC0)).
Per the quoted datasheet text, the RXC0 flag is set exactly when unread
data is in the receive buffer, i.e. the pending input is nonempty. -/
def debug_available (step : Bool) (input : List Char) : Bool :=
  step || !input.isEmpty

/-- The per-cycle debug phase of loop() (lines 316-320): debug() runs iff
debug_available(); inside debug(), the transcript line is emitted iff
debug_step was set at entry, then the command loop runs.  Result: new
debug_step, remaining input, new state, emitted transcript line (if any);
none when the command loop blocks forever on the given input. -/
def loop_debug (step : Bool) (input : List Char) (line : String) (s : St) :
    Option (Bool × List Char × St × Option String) :=
  if debug_available step input then
    (debugCmds step input s).map
      (fun r => (r.1, r.2.1, r.2.2, if step then some line else none))
  else
    some (step, input, s, none)

/-- One lowercase hex digit, as printed by the %x conversions. -/
def hexDig (n : Nat) : Char :=
  if n < 10 then Char.ofNat (48 + n) else Char.ofNat (87 + n)

/-- The four characters printed by %04x for a uint16_t value (zero-padded,
lowercase; a uint16_t never needs more than four digits). -/
def hex4ch (n : Nat) : List Char :=
  [hexDig (n / 4096 % 16), hexDig (n / 256 % 16), hexDig (n / 16 % 16),
   hexDig (n % 16)]

/-- The two characters printed by %02x for a uint8_t value. -/
def hex2ch (n : Nat) : List Char :=
  [hexDig (n / 16 % 16), hexDig (n % 16)]

/-- The transcript line of debug() (lines 194-202), i.e. snprintf with
format "%c%c%c%c %04x %02x%s%s" and arguments: RWB set prints r else W;
SYNC set prints S else the dash; MLB set prints the dash else M; VPB set
prints the dash else V; then the address, the datum, and on SYNC cycles a
space and the disassembly buffer (both empty strings otherwise).  serbuf
is 64 bytes and disbuf at most 15 characters, so snprintf never
truncates. -/
def debugLine (rwb sync mlb vpb : Bool) (addr data : Nat) (dis : String) :
    String :=
  String.mk
    ([if rwb then 'r' else 'W',
      if sync then 'S' else '-',
      if mlb then '-' else 'M',
      if vpb then '-' else 'V', ' ']
     ++ hex4ch addr ++ [' '] ++ hex2ch data
     ++ (if sync then ' ' :: dis.data else []))

/-- Value of a list of lowercase hex digit characters, most significant
first. -/
def hexValList (l : List Char) : Nat :=
  l.foldl
    (fun acc c =>
      acc * 16 + (if c.toNat ≤ 57 then c.toNat - 48 else c.toNat - 87)) 0

/-- Recognizer for a lowercase hex digit character. -/
def isHexDigitCh (c : Char) : Bool :=
  (48 ≤ c.toNat && c.toNat ≤ 57) || (97 ≤ c.toNat && c.toNat ≤ 102)

/-- A concrete all-zero RAM image, for witnesses. -/
def ram0 : Nat → Nat := fun _ => 0

/-- A concrete ROM image of the source's size, for witnesses. -/
def romZ : List Nat := List.replicate ROMSIZE 0

/-- A concrete controller state, for witnesses. -/
def st0 : St := ⟨ram0, true, false, []⟩

/-! Helper lemmas. -/

theorem and_4095_of_lt (a : Nat) (h : a < 4096) : a &&& 4095 = a := by
  have h2 := Nat.and_pow_two_sub_one_eq_mod a 12
  norm_num at h2
  omega

theorem writes_ne (a : Nat) :
    ∀ (ops : List (Nat × Nat)) (ram : Nat → Nat),
      (∀ p ∈ ops, p.1 ≠ a) → writes ram ops a = ram a := by
  intro ops
  induction ops with
  | nil => intro ram _; rfl
  | cons p rest ih =>
    intro ram hops
    have htail : ∀ q ∈ rest, q.1 ≠ a := fun q hq => hops q (List.mem_cons_of_mem p hq)
    have hhd : p.1 ≠ a := hops p (List.mem_cons_self p rest)
    show writes (write_data ram p.1 p.2) rest a = ram a
    rw [ih (write_data ram p.1 p.2) htail]
    by_cases hb : p.1 < 0x1000
    · have hb4 : p.1 &&& 4095 = p.1 := and_4095_of_lt p.1 (by omega)
      simp only [write_data, RAMADDR, RAMMASK, RAMSIZE]
      norm_num [hb, hb4]
      intro hEq
      exact absurd hEq.symm hhd
    · simp [write_data, RAMADDR, hb]

theorem debugCmds_not_step_isSome :
    ∀ (l : List Char) (s : St), (debugCmds false l s).isSome = true := by
  intro l
  induction l with
  | nil => intro s; rfl
  | cons c rest ih =>
    intro s
    by_cases h1 : c = 's'
    · simpa [debugCmds, h1] using ih s
    · by_cases h2 : c = 'c'
      · simpa [debugCmds, h1, h2] using ih s
      · by_cases h3 : c = 'b'
        · simp [debugCmds, h1, h2, h3]
        · by_cases h4 : c = 'r'
          · simp [debugCmds, h1, h2, h3, h4]
          · simpa [debugCmds, h1, h2, h3, h4] using ih s

theorem hexValDig (d : Nat) (hd : d < 16) :
    (if (hexDig d).toNat ≤ 57 then (hexDig d).toNat - 48
     else (hexDig d).toNat - 87) = d := by
  interval_cases d <;> decide

theorem hexDigIsHex (d : Nat) (hd : d < 16) : isHexDigitCh (hexDig d) = true := by
  interval_cases d <;> decide

/-! Claim theorems. -/

/-- C1 (amended): whenever the debug hook emits a transcript line, the
line is, in order: a direction character (r when RWB is high, W when RWB
is low), S if SYNC else a dash, M if the MLB pin is low (asserted) else a
dash, V if the VPB pin is low (asserted) else a dash, a space, a 4-digit
hex address, a space, a 2-digit hex datum, and — only on SYNC cycles —
one space followed by the disassembly text.  (The original claim had the
M/V polarity reversed — letters on pin-high — refuted below at a concrete
input.)  The hex fields really are hex
renderings: each has exactly the stated digit count, every character is a
lowercase hex digit, and reading the digits back yields the address resp.
datum. -/
theorem c1_transcript_format (rwb sync mlb vpb : Bool) (addr data : Nat)
    (dis : String) (ha : addr < 65536) (hd : data < 256) :
    (debugLine rwb sync mlb vpb addr data dis).data =
      ([if rwb then 'r' else 'W',
        if sync then 'S' else '-',
        if mlb then '-' else 'M',
        if vpb then '-' else 'V', ' ']
       ++ hex4ch addr ++ [' '] ++ hex2ch data
       ++ (if sync then ' ' :: dis.data else []))
    ∧ (hex4ch addr).length = 4
    ∧ hexValList (hex4ch addr) = addr
    ∧ (∀ c ∈ hex4ch addr, isHexDigitCh c = true)
    ∧ (hex2ch data).length = 2
    ∧ hexValList (hex2ch data) = data
    ∧ (∀ c ∈ hex2ch data, isHexDigitCh c = true) := by
  refine ⟨rfl, rfl, ?_, ?_, rfl, ?_, ?_⟩
  · simp only [hexValList, hex4ch, List.foldl_cons, List.foldl_nil]
    rw [hexValDig _ (Nat.mod_lt _ (by omega)),
        hexValDig _ (Nat.mod_lt _ (by omega)),
        hexValDig _ (Nat.mod_lt _ (by omega)),
        hexValDig _ (Nat.mod_lt _ (by omega))]
    omega
  · intro c hc
    simp only [hex4ch, List.mem_cons, List.not_mem_nil, or_false] at hc
    rcases hc with h | h | h | h <;> rw [h] <;>
      exact hexDigIsHex _ (Nat.mod_lt _ (by omega))
  · simp only [hexValList, hex2ch, List.foldl_cons, List.foldl_nil]
    rw [hexValDig _ (Nat.mod_lt _ (by omega)),
        hexValDig _ (Nat.mod_lt _ (by omega))]
    omega
  · intro c hc
    simp only [hex2ch, List.mem_cons, List.not_mem_nil, or_false] at hc
    rcases hc with h | h <;> rw [h] <;>
      exact hexDigIsHex _ (Nat.mod_lt _ (by omega))

/-- C1 counterexample to the original claim: on a read cycle with both
the MLB and VPB pins high (inactive), the claim as stated predicts the
line r-MV 0000 00, but the code emits dashes in the M and V positions
(letters appear when those pins are low, not high). -/
theorem c1_claim_counterexample :
    (debugLine true false true true 0 0 "").data ≠
      ['r', '-', 'M', 'V', ' ', '0', '0', '0', '0', ' ', '0', '0'] := by
  decide

/-- C1 witness at a concrete SYNC read cycle. -/
theorem c1_transcript_format_witness :
    (debugLine true true true true 0x1234 0x5e "LDA").data =
      (['r', 'S', '-', '-', ' ']
       ++ hex4ch 0x1234 ++ [' '] ++ hex2ch 0x5e ++ (' ' :: "LDA".data)) :=
  (c1_transcript_format true true true true 0x1234 0x5e "LDA"
    (by decide) (by decide)).1

/-- C3: for a RAM address a, read_data returns the value of the most recent
write_data to a, regardless of any later writes to other addresses (reads
are pure and cannot intervene); in particular with no intervening
operations, write_data(a, v) followed by read_data(a) yields v. -/
theorem c3_ram_read_most_recent_write (rom : List Nat) (ram : Nat → Nat)
    (a v : Nat) (ops : List (Nat × Nat)) (ha : a < 0x1000)
    (hops : ∀ p ∈ ops, p.1 ≠ a) :
    read_data rom (writes (write_data ram a v) ops) a = some v
    ∧ read_data rom (write_data ram a v) a = some v := by
  have ha4 : a &&& 4095 = a := and_4095_of_lt a (by omega)
  have hra : RAMADDR a = true := by simp [RAMADDR]; omega
  have hw : write_data ram a v a = v := by
    simp only [write_data, RAMMASK, RAMSIZE, hra, if_true]
    norm_num [ha4]
  constructor
  · simp only [read_data, hra, if_true, RAMMASK, RAMSIZE]
    norm_num [ha4]
    rw [writes_ne a ops (write_data ram a v) hops, hw]
  · simp only [read_data, hra, if_true, RAMMASK, RAMSIZE]
    norm_num [ha4, hw]

/-- C3 witness: write 0x42 at 0x10, then write elsewhere (another RAM slot
and a ROM address), then read 0x10 back. -/
theorem c3_ram_read_most_recent_write_witness :
    read_data [] (writes (write_data ram0 0x10 0x42) [(0x11, 7), (0xA000, 9)])
        0x10 = some 0x42 :=
  (c3_ram_read_most_recent_write [] ram0 0x10 0x42 [(0x11, 7), (0xA000, 9)]
    (by decide) (by decide)).1

/-- C4: a write to any non-RAM address (a ≥ 0x1000) leaves the whole RAM
image unchanged (a silent no-op), and a read of any ROM address (a ≥
0xA000, 16-bit) returns the fixed ROM byte at offset a - 0xA000 —
unaffected by any prior sequence of writes — which exists for the
concrete ROM image size. -/
theorem c4_nonram_write_noop_rom_read_fixed (rom : List Nat)
    (ram : Nat → Nat) (a v b : Nat) (ops : List (Nat × Nat))
    (hrom : rom.length = ROMSIZE) (hb1 : 0xA000 ≤ b) (hb2 : b < 65536)
    (ha : 0x1000 ≤ a) :
    write_data ram a v = ram
    ∧ read_data rom (writes ram ops) b = rom.get? (b - 0xA000)
    ∧ ∃ w, read_data rom (writes ram ops) b = some w := by
  have hna : ¬ a < 0x1000 := by omega
  have hnb : ¬ b < 0x1000 := by omega
  have hread : read_data rom (writes ram ops) b = rom.get? (b - 0xA000) := by
    simp [read_data, RAMADDR, ROMADDR, hnb, hb1]
  refine ⟨by simp [write_data, RAMADDR, hna], hread, ?_⟩
  rw [hread, List.get?_eq_getElem?]
  have hlt : b - 0xA000 < rom.length := by rw [hrom]; simp [ROMSIZE]; omega
  exact ⟨rom[b - 0xA000], (List.getElem?_eq_some).2 ⟨hlt, rfl⟩⟩

/-- C4 witness: writing at 0x2000 is a no-op, and reading 0xA000 after a
RAM write still yields the ROM byte at offset 0. -/
theorem c4_nonram_write_noop_rom_read_fixed_witness :
    write_data ram0 0x2000 5 = ram0
    ∧ read_data romZ (writes ram0 [(0, 1)]) 0xA000 = romZ.get? 0
    ∧ ∃ w, read_data romZ (writes ram0 [(0, 1)]) 0xA000 = some w :=
  c4_nonram_write_noop_rom_read_fixed romZ ram0 0x2000 5 0xA000 [(0, 1)]
    (by simp [romZ]) (by decide) (by decide) (by decide)

/-- C10: for every 16-bit address a with a ≥ 0xA000 the ROM offset
a - 0xA000 is strictly below the concrete image size 24576, so whenever
read_data is invoked on an address satisfying the RAM or ROM predicate it
returns a byte — the unchecked index never leaves the image and the
decode/bounds hazard is unreachable at this ROM size. -/
theorem c10_rom_offset_in_bounds (rom : List Nat) (ram : Nat → Nat)
    (a : Nat) (hrom : rom.length = ROMSIZE) (ha : a < 65536) :
    (0xA000 ≤ a → a - 0xA000 < 24576)
    ∧ ((RAMADDR a = true ∨ ROMADDR a = true) →
        ∃ v, read_data rom ram a = some v) := by
  constructor
  · omega
  · intro hcase
    rcases hcase with hram | hrom'
    · have hlt : a < 0x1000 := by simpa [RAMADDR] using hram
      exact ⟨ram (a &&& RAMMASK), by simp [read_data, RAMADDR, hlt]⟩
    · have hge : 0xA000 ≤ a := by simpa [ROMADDR] using hrom'
      have hnlt : ¬ a < 0x1000 := by omega
      have hlt : a - 0xA000 < rom.length := by rw [hrom]; simp [ROMSIZE]; omega
      refine ⟨rom[a - 0xA000], ?_⟩
      simp only [read_data, RAMADDR, ROMADDR]
      norm_num [hnlt, hge]

/-- C10 witness at the first and last ROM addresses. -/
theorem c10_rom_offset_in_bounds_witness :
    (0xFFFF - 0xA000 < 24576)
    ∧ ∃ v, read_data romZ ram0 0xA000 = some v :=
  ⟨(c10_rom_offset_in_bounds romZ ram0 0xFFFF (by simp [romZ]) (by decide)).1
      (by decide),
   (c10_rom_offset_in_bounds romZ ram0 0xA000 (by simp [romZ]) (by decide)).2
      (Or.inr (by decide))⟩

/-- C5: debug_step starts true; the command bytes follow the table exactly:
with Stepping true, a byte s exits the hook with Stepping still true (one
cycle runs and, whatever input is then pending, the hook re-engages at the
next cycle boundary because debug_available is true); a byte c sets
Stepping false and exits, after which the command loop never blocks; with
Stepping false, a byte b sets Stepping true and exits, re-halting at the
next boundary; a byte r, in either state, runs the full reset sequence
(synchronously, the returned state is reset of the current state), leaves
Stepping unchanged and exits. -/
theorem c5_debug_transitions :
    debug_step_init = true
    ∧ (∀ (rest : List Char) (s : St),
        debugCmds true ('s' :: rest) s = some (true, rest, s)
        ∧ debug_available true rest = true)
    ∧ (∀ (rest : List Char) (s : St),
        debugCmds true ('c' :: rest) s = some (false, rest, s))
    ∧ (∀ (l : List Char) (s : St), (debugCmds false l s).isSome = true)
    ∧ (∀ (rest : List Char) (s : St),
        debugCmds false ('b' :: rest) s = some (true, rest, s)
        ∧ debug_available true rest = true)
    ∧ (∀ (st : Bool) (rest : List Char) (s : St),
        debugCmds st ('r' :: rest) s = some (st, rest, reset s)) := by
  refine ⟨rfl, fun rest s => ⟨rfl, rfl⟩, fun rest s => rfl,
    debugCmds_not_step_isSome, fun rest s => ⟨rfl, rfl⟩, fun st rest s => ?_⟩
  cases st <;> rfl

/-- C6: on each bus cycle the debug hook runs — and may block — exactly
when Stepping is true or a byte is pending; when neither holds the cycle
performs no hook entry at all: no transcript line, no state change, no
blocking.  Blocking is possible only with Stepping true (it does occur on
empty input), never with Stepping false. -/
theorem c6_hook_entry (step : Bool) (input : List Char) (line : String)
    (s : St) :
    (debug_available step input = true ↔ (step = true ∨ input ≠ []))
    ∧ (debug_available step input = false →
        loop_debug step input line s = some (step, input, s, none))
    ∧ (loop_debug step input line s = none → step = true)
    ∧ loop_debug true [] line s = none := by
  refine ⟨?_, ?_, ?_, rfl⟩
  · simp [debug_available, List.isEmpty_iff]
  · intro h
    simp [loop_debug, h]
  · intro h
    cases step
    · exfalso
      by_cases hav : debug_available false input = true
      · have hs := debugCmds_not_step_isSome input s
        simp only [loop_debug, hav, if_true] at h
        cases hdc : debugCmds false input s with
        | none => rw [hdc] at hs; simp at hs
        | some r => rw [hdc] at h; simp at h
      · simp only [loop_debug, Bool.not_eq_true] at h
        rw [if_neg (by simpa using hav)] at h
        exact Option.noConfusion h
    · rfl

/-- C6 witness: Stepping false and no pending byte means no hook entry and
no transcript; Stepping true with empty input blocks. -/
theorem c6_hook_entry_witness :
    loop_debug false [] "x" st0 = some (false, [], st0, none)
    ∧ loop_debug true [] "x" st0 = none :=
  ⟨(c6_hook_entry false [] "x" st0).2.1 (by decide),
   (c6_hook_entry true [] "x" st0).2.2.2⟩

/-- C7: reset runs synchronously to completion: it pulls RESB low, runs
exactly RESB_0_NCLK = 2 full clock cycles, pulls RESB high, then runs
exactly RESB_1_NCLK = 7 full clock cycles — the emitted events are exactly
this ordered sequence, no more and no fewer, and RESB ends high. -/
theorem c7_reset_sequence (s : St) :
    (reset s).trace =
      s.trace ++
        [Ev.resbLo, Ev.rise, Ev.fall, Ev.rise, Ev.fall,
         Ev.resbHi, Ev.rise, Ev.fall, Ev.rise, Ev.fall, Ev.rise, Ev.fall,
         Ev.rise, Ev.fall, Ev.rise, Ev.fall, Ev.rise, Ev.fall, Ev.rise,
         Ev.fall]
    ∧ (reset s).resb = true := by
  constructor
  · show (clock_cycle RESB_1_NCLK _).trace = _
    simp [reset, RESB_0_NCLK, RESB_1_NCLK, clock_cycle, clock_rise,
      clock_fall]
  · rfl

/-- C8: reset leaves every byte of the RAM image untouched — RAM persists
across resets. -/
theorem c8_reset_preserves_ram (s : St) : (reset s).ram = s.ram := by
  simp [reset, RESB_0_NCLK, RESB_1_NCLK, clock_cycle, clock_rise, clock_fall]

/-- C9: while the hook is waiting with Stepping true, a byte that resolves
no transition in that state (anything other than s, c, r — including b,
whose precondition fails, and unrecognized bytes) is consumed and ignored:
the rest of the run is as if it never arrived (same Stepping, same state,
nothing emitted, no error), and on input made only of such bytes the wait
never resolves. -/
theorem c9_unrecognized_consumed :
    (∀ (c : Char) (rest : List Char) (s : St),
        c ≠ 's' → c ≠ 'c' → c ≠ 'r' →
        debugCmds true (c :: rest) s = debugCmds true rest s)
    ∧ (∀ (l : List Char) (s : St),
        (∀ c ∈ l, c ≠ 's' ∧ c ≠ 'c' ∧ c ≠ 'r') →
        debugCmds true l s = none) := by
  have hstep : ∀ (c : Char) (rest : List Char) (s : St),
      c ≠ 's' → c ≠ 'c' → c ≠ 'r' →
      debugCmds true (c :: rest) s = debugCmds true rest s := by
    intro c rest s h1 h2 h4
    by_cases h3 : c = 'b'
    · simp [debugCmds, h1, h2, h3]
    · simp [debugCmds, h1, h2, h3, h4]
  refine ⟨hstep, ?_⟩
  intro l
  induction l with
  | nil => intro s _; rfl
  | cons c rest ih =>
    intro s hl
    have hc := hl c (List.mem_cons_self c rest)
    rw [hstep c rest s hc.1 hc.2.1 hc.2.2]
    exact ih s (fun d hd => hl d (List.mem_cons_of_mem c hd))

/-- C9 witness: an unrecognized byte x is consumed with no effect, and
input consisting of x and b (non-resolving while Stepping) leaves the wait
unresolved. -/
theorem c9_unrecognized_consumed_witness :
    debugCmds true ['x'] st0 = debugCmds true [] st0
    ∧ debugCmds true ['x', 'b'] st0 = none :=
  ⟨c9_unrecognized_consumed.1 'x' [] st0 (by decide) (by decide) (by decide),
   c9_unrecognized_consumed.2 ['x', 'b'] st0 (by decide)⟩

end Ctl6502
